import Mathlib

/-!
Verification development for the CI/CD remediation workflow of this
repository (the cicd_agent package: discovery, validators, error
aggregation, decision engine, fixers, release pipeline and the workflow
driver).  Python strings are modelled as lists of characters, Python
dicts keyed by the fixed category set as a three-field record, the
filesystem as a partial map from paths to file contents, and every
external subprocess invocation as a pure oracle carried in an
environment record.  Each node function of the workflow graph is
translated directly from its Python source.
-/

/-- Python strings are modelled as lists of characters. -/
abbrev PyStr := List Char

/-- Coerce a Lean string literal to the model type. -/
def pys (s : String) : PyStr := s.data

/-- Python str.startswith restricted to character lists. -/
def listStartsWith : PyStr → PyStr → Bool
  | _, [] => true
  | [], _ :: _ => false
  | a :: as, b :: bs => a = b && listStartsWith as bs

/-- Python str.endswith restricted to character lists. -/
def listEndsWith (s suf : PyStr) : Bool := listStartsWith s.reverse suf.reverse

/-- Python substring containment, the in operator on str. -/
def pyIn (needle : PyStr) : PyStr → Bool
  | [] => needle.isEmpty
  | c :: rest => listStartsWith (c :: rest) needle || pyIn needle rest

/-- Python str.strip with no argument: drop leading and trailing whitespace. -/
def pyStrip (s : PyStr) : PyStr :=
  ((s.dropWhile Char.isWhitespace).reverse.dropWhile Char.isWhitespace).reverse

/-- Python str.lower, per character. -/
def pyLower (s : PyStr) : PyStr := s.map Char.toLower

/-- Helper for pySplitWs: accumulate the current token in reverse. -/
def pySplitWsGo (acc : PyStr) : PyStr → List PyStr
  | [] => if acc.isEmpty then [] else [acc.reverse]
  | c :: rest =>
    if c.isWhitespace then
      if acc.isEmpty then pySplitWsGo [] rest else acc.reverse :: pySplitWsGo [] rest
    else pySplitWsGo (c :: acc) rest

/-- Python str.split with no argument: split on whitespace runs, no empty tokens. -/
def pySplitWs (s : PyStr) : List PyStr := pySplitWsGo [] s

/-- Worker for pySplitOnSub.  The fuel only bounds the recursion depth
structurally; every step consumes at least one character of a non-empty
separator match or one plain character, so a call with fuel equal to
the string length never reaches the fuel-exhaustion arm. -/
def pySplitOnSubGo (sep : PyStr) : Nat → PyStr → List PyStr
  | _, [] => [[]]
  | 0, s => [s]
  | fuel + 1, c :: rest =>
    if listStartsWith (c :: rest) sep && !sep.isEmpty then
      [] :: pySplitOnSubGo sep fuel ((c :: rest).drop sep.length)
    else
      match pySplitOnSubGo sep fuel rest with
      | [] => [[c]]
      | chunk :: chunks => (c :: chunk) :: chunks

/-- Python str.split with a non-empty separator string: split at every
non-overlapping occurrence from the left, keeping empty chunks. -/
def pySplitOnSub (sep s : PyStr) : List PyStr := pySplitOnSubGo sep s.length s

/-- Worker for pyReplace, fuelled the same way as pySplitOnSubGo. -/
def pyReplaceGo (needle repl : PyStr) : Nat → PyStr → PyStr
  | _, [] => []
  | 0, s => s
  | fuel + 1, c :: rest =>
    if listStartsWith (c :: rest) needle && !needle.isEmpty then
      repl ++ pyReplaceGo needle repl fuel ((c :: rest).drop needle.length)
    else c :: pyReplaceGo needle repl fuel rest

/-- Python str.replace with a non-empty pattern: replace every
non-overlapping occurrence from the left. -/
def pyReplace (needle repl s : PyStr) : PyStr := pyReplaceGo needle repl s.length s

/-- Drop trailing slash characters, as str.rstrip with a slash argument. -/
def rstripSlashes (l : PyStr) : PyStr := (l.reverse.dropWhile (· = '/')).reverse

/-- The os.path.dirname function for POSIX paths: keep everything up to and
including the last slash, then strip trailing slashes unless the head is
all slashes. -/
def pyDirname (p : PyStr) : PyStr :=
  let afterLast := p.reverse.takeWhile (· ≠ '/')
  if afterLast.length = p.length then []
  else
    let head := p.take (p.length - afterLast.length)
    if head.any (· ≠ '/') then rstripSlashes head else head

/-- The os.path.basename function for POSIX paths: everything after the
last slash. -/
def pyBasename (p : PyStr) : PyStr := (p.reverse.takeWhile (· ≠ '/')).reverse

/-- The os.path.join function for POSIX paths, two arguments. -/
def pyJoin (a b : PyStr) : PyStr :=
  if listStartsWith b ['/'] then b
  else if a.isEmpty || listEndsWith a ['/'] then a ++ b
  else a ++ '/' :: b

/-- Helper for readLines: accumulate the current line in reverse. -/
def readLinesGo (acc : PyStr) : PyStr → List PyStr
  | [] => if acc.isEmpty then [] else [acc.reverse]
  | c :: rest =>
    if c = '\n' then ('\n' :: acc).reverse :: readLinesGo [] rest
    else readLinesGo (c :: acc) rest

/-- Python file readlines: split the content into lines, each keeping its
trailing newline. -/
def readLines (s : PyStr) : List PyStr := readLinesGo [] s

/-- Helper for dedupFirst carrying the elements already emitted. -/
def dedupFirstGo {α : Type} [DecidableEq α] (seen : List α) : List α → List α
  | [] => []
  | x :: xs => if x ∈ seen then dedupFirstGo seen xs else x :: dedupFirstGo (x :: seen) xs

/-- Deduplicate a list keeping the first occurrence of each element.  This
models the Python set collections built by the workflow; set iteration
order is unspecified in Python, the model fixes first-insertion order. -/
def dedupFirst {α : Type} [DecidableEq α] (l : List α) : List α := dedupFirstGo [] l

/-- Decimal digits of a natural number, accumulator form. -/
def natToStrAux : Nat → PyStr → PyStr
  | 0, acc => acc
  | n + 1, acc => natToStrAux ((n + 1) / 10) (Char.ofNat (48 + (n + 1) % 10) :: acc)
termination_by n => n
decreasing_by
  exact Nat.lt_of_lt_of_le (Nat.div_lt_self (Nat.succ_pos n) (by norm_num)) (Nat.le_refl _)

/-- Python str of a natural number. -/
def natToStr (n : Nat) : PyStr := if n = 0 then ['0'] else natToStrAux n []

/-- The three file categories of the workflow, the closed set of keys of
every per-category dict in state.py. -/
inductive FileType
  | terraform
  | docker
  | helm
deriving DecidableEq

/-- The Python string key of a category. -/
def FileType.key : FileType → PyStr
  | .terraform => pys "terraform"
  | .docker => pys "docker"
  | .helm => pys "helm"

/-- A dict keyed by the three categories. -/
structure Cat3 (α : Type) where
  terraform : α
  docker : α
  helm : α
deriving DecidableEq

/-- Dict lookup by category key. -/
def Cat3.get {α : Type} (m : Cat3 α) : FileType → α
  | .terraform => m.terraform
  | .docker => m.docker
  | .helm => m.helm

/-- Dict update at one category key. -/
def Cat3.set {α : Type} (m : Cat3 α) : FileType → α → Cat3 α
  | .terraform, v => { m with terraform := v }
  | .docker, v => { m with docker := v }
  | .helm, v => { m with helm := v }

/-- The ValidationResult TypedDict of state.py. -/
structure ValidationResult where
  file_path : PyStr
  tool : PyStr
  passed : Bool
  errors : List PyStr
  warnings : List PyStr
deriving DecidableEq

/-- The FixAttempt TypedDict of state.py; attempts and max_attempts are
Python ints. -/
structure FixAttempt where
  file_type : PyStr
  attempts : Int
  max_attempts : Int
  last_fix_time : Option PyStr
deriving DecidableEq

/-- One entry of the release_results dict.  The Python value is a plain
dict; the keys that each stage writes are kept as fields: status always,
images for the docker stage, charts for the helm stage, err for the
failed terraform stage. -/
structure ReleaseEntry where
  status : PyStr
  images : List PyStr := []
  charts : List PyStr := []
  err : Option PyStr := none
deriving DecidableEq

/-- The CICDState TypedDict of state.py. -/
structure CICDState where
  user_paths : List PyStr
  files : Cat3 (List PyStr)
  validation_results : Cat3 (List ValidationResult)
  all_validations_complete : Bool
  collected_errors : Cat3 (List PyStr)
  errors_by_file : List (PyStr × List PyStr)
  fix_attempts : Cat3 (Option FixAttempt)
  files_fixed : List PyStr
  fix_applied : Bool
  release_ready : Bool
  release_results : Cat3 (Option ReleaseEntry)
  docker_images_built : List PyStr
  helm_charts_released : List PyStr
  terraform_applied : Bool
  status : PyStr
  error_message : Option PyStr
deriving DecidableEq

/-- The create_initial_state function of state.py.  The initially empty
dicts validation_results, collected_errors, fix_attempts and
release_results are modelled with empty or none entries at every
category key. -/
def create_initial_state (user_paths : List PyStr) : CICDState where
  user_paths := user_paths
  files := ⟨[], [], []⟩
  validation_results := ⟨[], [], []⟩
  all_validations_complete := false
  collected_errors := ⟨[], [], []⟩
  errors_by_file := []
  fix_attempts := ⟨none, none, none⟩
  files_fixed := []
  fix_applied := false
  release_ready := false
  release_results := ⟨none, none, none⟩
  docker_images_built := []
  helm_charts_released := []
  terraform_applied := false
  status := pys "running"
  error_message := none

/-- File contents indexed by path; none means the file does not exist. -/
abbrev Fs := PyStr → Option PyStr

/-- Overwrite one file. -/
def Fs.write (fs : Fs) (p c : PyStr) : Fs := fun q => if q = p then some c else fs q

/-- One external command invocation: argv and optional working directory. -/
abbrev Cmd := List PyStr × Option PyStr

/-- The ambient world of the workflow: outcomes of external commands
(modelling the run_command wrapper around subprocess, which returns
returncode zero as a bool together with stdout and stderr and never
raises), the recursive os.walk file listing under a root (after the
hidden-directory and node_modules pruning that discover_files applies),
os.path.exists on search roots, os.path.abspath, and the two
datetime.now renderings the source uses. -/
structure Env where
  runCmd : List PyStr → Option PyStr → Bool × PyStr × PyStr
  walkFiles : PyStr → List PyStr
  pathExists : PyStr → Bool
  abspath : PyStr → PyStr
  nowIso : PyStr
  nowStamp : PyStr

/-- The run_command helper of validators.py and release.py. -/
def run_command (env : Env) (cmd : List PyStr) (cwd : Option PyStr) : Bool × PyStr × PyStr :=
  env.runCmd cmd cwd

/-- Python x or y on strings: the first operand unless it is empty. -/
def pyOr (a b : PyStr) : PyStr := if a.isEmpty then b else a

/-- The is_terraform_file classifier of discovery.py. -/
def is_terraform_file (file_path : PyStr) : Bool :=
  listEndsWith file_path (pys ".tf") || listEndsWith file_path (pys ".tfvars")

/-- The is_docker_file classifier of discovery.py. -/
def is_docker_file (file_path : PyStr) : Bool :=
  let basename := pyLower (pyBasename file_path)
  listStartsWith basename (pys "dockerfile") || pyIn (pys "docker-compose") basename

/-- The is_helm_file classifier of discovery.py. -/
def is_helm_file (file_path : PyStr) : Bool :=
  let basename := pyBasename file_path
  (pyLower basename = pys "chart.yaml" || pyLower basename = pys "values.yaml"
      || pyLower basename = pys "requirements.yaml")
    || pyIn (pys "/templates/") (pyLower file_path)

/-- Classification of one visited file, first match wins, as in the
discover_files walk body. -/
def discoverClassify (acc : Cat3 (List PyStr)) (full_path : PyStr) : Cat3 (List PyStr) :=
  if is_terraform_file full_path then { acc with terraform := acc.terraform ++ [full_path] }
  else if is_docker_file full_path then { acc with docker := acc.docker ++ [full_path] }
  else if is_helm_file full_path then { acc with helm := acc.helm ++ [full_path] }
  else acc

/-- The discover_files node of discovery.py: skip missing roots, walk the
rest, classify every visited file. -/
def discover_files (env : Env) (state : CICDState) : CICDState :=
  let discovered := state.user_paths.foldl
    (fun acc path =>
      if !env.pathExists path then acc
      else (env.walkFiles path).foldl discoverClassify acc)
    ⟨[], [], []⟩
  { state with files := discovered }

/-- The upward chart-root walk inlined in validators.py, fixers.py and
release.py:

    chart_dir = os.path.dirname(f)
    while chart_dir and not os.path.exists(os.path.join(chart_dir, "Chart.yaml")):
        chart_dir = os.path.dirname(chart_dir)

The loop has no progress guard, so it is modelled with fuel: some means
the while condition became false within that many iterations, none means
the source loop is still running after that many iterations. -/
def chartWalk (fs : Fs) : Nat → PyStr → Option PyStr
  | 0, _ => none
  | n + 1, chart_dir =>
    if !chart_dir.isEmpty && !(fs (pyJoin chart_dir (pys "Chart.yaml"))).isSome then
      chartWalk fs n (pyDirname chart_dir)
    else some chart_dir

/-- The chart_dirs set built by validate_helm, fix_helm and release_helm:
walk upward from each file's directory and keep the truthy exit values,
deduplicated.  A walk that exhausts its fuel contributes nothing. -/
def chartDirs (fs : Fs) (fuel : Nat) (files : List PyStr) : List PyStr :=
  dedupFirst (files.filterMap (fun f =>
    match chartWalk fs fuel (pyDirname f) with
    | some chart_dir => if !chart_dir.isEmpty then some chart_dir else none
    | none => none))

/-- The three per-directory tool runs of validate_terraform. -/
def terraformDirResults (env : Env) (tf_dir : PyStr) : List ValidationResult :=
  let (p1, o1, e1) := run_command env [pys "terraform", pys "validate"] (some tf_dir)
  let r1 : ValidationResult :=
    ⟨tf_dir, pys "terraform_validate", p1, if p1 then [] else [pyOr e1 o1], []⟩
  let (p2, o2, e2) := run_command env [pys "tflint"] (some tf_dir)
  let r2 : ValidationResult :=
    ⟨tf_dir, pys "tflint", p2, if p2 then [] else [pyOr e2 o2], if p2 then [] else [o2]⟩
  let (p3, o3, e3) := run_command env
    [pys "checkov", pys "-d", pys ".", pys "--framework", pys "terraform", pys "--quiet"]
    (some tf_dir)
  let r3 : ValidationResult :=
    ⟨tf_dir, pys "checkov", p3, if p3 then [] else [pyOr e3 o3], []⟩
  [r1, r2, r3]

/-- The validate_terraform node of validators.py. -/
def validate_terraform (env : Env) (state : CICDState) : CICDState :=
  let files := state.files.get .terraform
  if files.isEmpty then
    { state with validation_results := state.validation_results.set .terraform [] }
  else
    let tf_dirs := dedupFirst (files.map pyDirname)
    { state with validation_results :=
        state.validation_results.set .terraform (tf_dirs.flatMap (terraformDirResults env)) }

/-- The two per-file tool runs of validate_docker (the docker rmi cleanup
after a passing build changes no recorded result and is omitted). -/
def dockerFileResults (env : Env) (dockerfile : PyStr) : List ValidationResult :=
  let docker_dir := pyOr (pyDirname dockerfile) (pys ".")
  let (p1, o1, e1) := run_command env [pys "hadolint", dockerfile] none
  let r1 : ValidationResult :=
    ⟨dockerfile, pys "hadolint", p1, if p1 then [] else [pyOr e1 o1], if p1 then [] else [o1]⟩
  let (p2, o2, e2) := run_command env
    [pys "docker", pys "build", pys "--no-cache", pys "-t", pys "test-build", pys "."]
    (some docker_dir)
  let r2 : ValidationResult :=
    ⟨dockerfile, pys "docker_build", p2, if p2 then [] else [pyOr e2 o2], []⟩
  [r1, r2]

/-- The validate_docker node of validators.py. -/
def validate_docker (env : Env) (state : CICDState) : CICDState :=
  let files := state.files.get .docker
  if files.isEmpty then
    { state with validation_results := state.validation_results.set .docker [] }
  else
    { state with validation_results :=
        state.validation_results.set .docker (files.flatMap (dockerFileResults env)) }

/-- The two per-chart tool runs of validate_helm. -/
def helmChartResults (env : Env) (chart_dir : PyStr) : List ValidationResult :=
  let (p1, o1, e1) := run_command env [pys "helm", pys "lint", chart_dir] none
  let r1 : ValidationResult :=
    ⟨chart_dir, pys "helm_lint", p1, if p1 then [] else [pyOr e1 o1], if p1 then [] else [o1]⟩
  let (p2, o2, e2) := run_command env [pys "helm", pys "template", chart_dir] none
  let r2 : ValidationResult :=
    ⟨chart_dir, pys "helm_template", p2, if p2 then [] else [pyOr e2 o2], []⟩
  [r1, r2]

/-- The validate_helm node of validators.py, with fuel for the unguarded
upward chart walk. -/
def validate_helm (fuel : Nat) (env : Env) (fs : Fs) (state : CICDState) : CICDState :=
  let files := state.files.get .helm
  if files.isEmpty then
    { state with validation_results := state.validation_results.set .helm [] }
  else
    let chart_dirs := chartDirs fs fuel files
    { state with validation_results :=
        state.validation_results.set .helm (chart_dirs.flatMap (helmChartResults env)) }

/-- The error line format of collect_errors in decision.py. -/
def fmtCollected (r : ValidationResult) : PyStr :=
  '[' :: r.tool ++ pys "] " ++ r.file_path ++ pys ": " ++ List.intercalate (pys ", ") r.errors

/-- Append raw error strings to one file's entry of errors_by_file,
creating the entry at the end on first use, as the Python dict does. -/
def ebfExtend (m : List (PyStr × List PyStr)) (k : PyStr) (v : List PyStr) :
    List (PyStr × List PyStr) :=
  if m.any (fun kv => kv.1 = k) then
    m.map (fun kv => if kv.1 = k then (kv.1, kv.2 ++ v) else kv)
  else m ++ [(k, v)]

/-- One result's contribution inside the collect_errors loops. -/
def collectStep (acc : List PyStr × List (PyStr × List PyStr)) (r : ValidationResult) :
    List PyStr × List (PyStr × List PyStr) :=
  if r.passed then acc
  else (acc.1 ++ [fmtCollected r], ebfExtend acc.2 r.file_path r.errors)

/-- The double loop of collect_errors over validation_results, in the
insertion order of the category keys (terraform, docker, helm — the
order the validators run in the graph). -/
def collectFrom (vr : Cat3 (List ValidationResult)) :
    Cat3 (List PyStr) × List (PyStr × List PyStr) :=
  let (ct, e1) := vr.terraform.foldl collectStep ([], [])
  let (cd, e2) := vr.docker.foldl collectStep ([], e1)
  let (ch, e3) := vr.helm.foldl collectStep ([], e2)
  (⟨ct, cd, ch⟩, e3)

/-- The collect_errors node of decision.py (the Error Aggregator). -/
def collect_errors (state : CICDState) : CICDState :=
  let (collected, errors_by_file) := collectFrom state.validation_results
  { state with
    collected_errors := collected
    errors_by_file := errors_by_file
    all_validations_complete := true }

/-- Total error count across the three categories of collected_errors. -/
def totalErrors (collected : Cat3 (List PyStr)) : Nat :=
  collected.terraform.length + collected.docker.length + collected.helm.length

/-- The attempts value decide_next_action reads, with the Python dict-get
default of zero for a category without a fix_attempts entry. -/
def attemptsOf (state : CICDState) (ft : FileType) : Int :=
  match state.fix_attempts.get ft with
  | some fa => fa.attempts
  | none => 0

/-- The max_attempts value decide_next_action reads, default three. -/
def maxAttemptsOf (state : CICDState) (ft : FileType) : Int :=
  match state.fix_attempts.get ft with
  | some fa => fa.max_attempts
  | none => 3

/-- One category's contribution to needs_fix in decide_next_action:
nonzero errors and remaining budget. -/
def catNeedsFix (state : CICDState) (ft : FileType) : Bool :=
  !(state.collected_errors.get ft).isEmpty && (attemptsOf state ft < maxAttemptsOf state ft)

/-- The decide_next_action node of decision.py.  The Python function
mutates the state and returns the routing label; the model returns the
pair. -/
def decide_next_action (state : CICDState) : CICDState × PyStr :=
  let total_errors := totalErrors state.collected_errors
  if total_errors = 0 then
    ({ state with release_ready := true }, pys "release")
  else
    let needs_fix := [FileType.terraform, FileType.docker, FileType.helm].any (catNeedsFix state)
    if needs_fix then
      ({ state with status := pys "fixing" }, pys "fix")
    else
      ({ state with
          status := pys "failed"
          error_message := some (pys "Max fix attempts reached. Errors remain: "
            ++ natToStr total_errors) }, pys "fail")

/-- The prepare_release node of decision.py. -/
def prepare_release (state : CICDState) : CICDState :=
  { state with release_ready := true, status := pys "releasing" }

/-- The fail_workflow node of decision.py (its loop only prints). -/
def fail_workflow (state : CICDState) : CICDState :=
  { state with status := pys "failed" }

/-- The get_or_create_fix_attempt helper of fixers.py.  It mutates the
state when the entry is missing, so the model returns the updated state
with the entry. -/
def get_or_create_fix_attempt (state : CICDState) (ft : FileType) : CICDState × FixAttempt :=
  match state.fix_attempts.get ft with
  | some fa => (state, fa)
  | none =>
    let fa : FixAttempt := ⟨ft.key, 0, 3, none⟩
    ({ state with fix_attempts := state.fix_attempts.set ft (some fa) }, fa)

/-- The can_attempt_fix helper of fixers.py. -/
def can_attempt_fix (state : CICDState) (ft : FileType) : CICDState × Bool :=
  let (state, fa) := get_or_create_fix_attempt state ft
  (state, fa.attempts < fa.max_attempts)

/-- The increment_fix_attempt helper of fixers.py; the timestamp comes
from the environment. -/
def increment_fix_attempt (env : Env) (state : CICDState) (ft : FileType) : CICDState :=
  let (state, fa) := get_or_create_fix_attempt state ft
  let fa' : FixAttempt := { fa with attempts := fa.attempts + 1, last_fix_time := some env.nowIso }
  { state with fix_attempts := state.fix_attempts.set ft (some fa') }

/-- The placeholder text fix_terraform substitutes for every occurrence
of a provider block opener. -/
def tfProviderBlock : PyStr :=
  pys "terraform \x7b\n  required_providers \x7b\n    # Providers will be auto-detected\n  \x7d\n\x7d\n\nprovider \""

/-- The per-file content edit of fix_terraform: insert the placeholder
required_providers block before every provider declaration when the file
references a provider and has none (the Python str.replace rewrites all
occurrences). -/
def fixTfContent (content : PyStr) : PyStr :=
  if !pyIn (pys "required_providers") content && pyIn (pys "provider ") content then
    pyReplace (pys "provider \"") tfProviderBlock content
  else content

/-- The per-directory body of fix_terraform: run terraform fmt (outcome
ignored; its own edits to the files are outside the model) and rewrite
every .tf file under the directory tree in place. -/
def fixTerraformDir (env : Env) (acc : Fs × List Cmd) (tf_dir : PyStr) :
    Except PyStr (Fs × List Cmd) := do
  let (fs, log) := acc
  let log := log ++ [([pys "terraform", pys "fmt", pys "-recursive"], some tf_dir)]
  let tfFiles := (env.walkFiles tf_dir).filter (fun f => listEndsWith f (pys ".tf"))
  let fs ← tfFiles.foldlM
    (fun (fs : Fs) file_path =>
      match fs file_path with
      | none => Except.error (pys "FileNotFoundError")
      | some content => pure (Fs.write fs file_path (fixTfContent content)))
    fs
  pure (fs, log)

/-- The fix_terraform node of fixers.py. -/
def fix_terraform (env : Env) (fs : Fs) (state : CICDState) :
    Except PyStr (CICDState × Fs × List Cmd) := do
  let (state, ok) := can_attempt_fix state .terraform
  if !ok then return (state, fs, [])
  let files := state.files.get .terraform
  if files.isEmpty then return (state, fs, [])
  let tf_dirs := dedupFirst (files.map pyDirname)
  let (fs, log) ← tf_dirs.foldlM (fixTerraformDir env) (fs, [])
  let state := increment_fix_attempt env state .terraform
  let state := { state with files_fixed := state.files_fixed ++ files, fix_applied := true }
  return (state, fs, log)

/-- The base_image_updates substitution table of fix_docker, in dict
insertion order. -/
def base_image_updates : List (PyStr × PyStr) :=
  [(pys "FROM python:", pys "FROM python:3.11-slim"),
   (pys "FROM node:", pys "FROM node:20-alpine"),
   (pys "FROM ubuntu:", pys "FROM ubuntu:22.04"),
   (pys "FROM alpine:", pys "FROM alpine:3.18")]

/-- One table entry applied to one line inside fix_docker:

    if line.strip().startswith('FROM') and old in line:
        if 'latest' not in line and ':' not in line.split(old)[1].split()[0]:
            line = line.replace(old.split(':')[0] + ':', new)

The whitespace split of the text after old can be empty, in which case
the Python indexing raises IndexError.  The branch for a separator split
with fewer than two chunks is unreachable because old in line holds. -/
def dockerBaseImageStep (line : PyStr) (entry : PyStr × PyStr) : Except PyStr PyStr :=
  let (old, new) := entry
  if listStartsWith (pyStrip line) (pys "FROM") && pyIn old line then
    if !pyIn (pys "latest") line then
      match pySplitOnSub old line with
      | _ :: afterOld :: _ =>
        match pySplitWs afterOld with
        | [] => Except.error (pys "IndexError")
        | tok :: _ =>
          if !pyIn [':'] tok then
            Except.ok (pyReplace ((pySplitOnSub [':'] old).headD [] ++ [':']) new line)
          else Except.ok line
      | _ => Except.ok line
    else Except.ok line
  else Except.ok line

/-- The inner base-image loop of fix_docker over the whole table, the
line being updated between entries. -/
def dockerFixLine (line : PyStr) : Except PyStr PyStr :=
  base_image_updates.foldlM dockerBaseImageStep line

/-- The line loop of fix_docker building fixed_lines: possibly rewrite
the base image, insert WORKDIR /app after a FROM line when the original
file has none (skipping the rest of the iteration, as the continue
does), and insert USER 1000 before a CMD or ENTRYPOINT line when the
original file has none. -/
def dockerFixLinesGo (origLines fixed_lines : List PyStr) :
    List PyStr → Except PyStr (List PyStr)
  | [] => pure fixed_lines
  | line :: rest => do
    let line ← dockerFixLine line
    if listStartsWith (pyStrip line) (pys "FROM")
        && !(origLines.any (fun l => pyIn (pys "WORKDIR") l)) then
      dockerFixLinesGo origLines (fixed_lines ++ [line, pys "WORKDIR /app\n"]) rest
    else
      let fixed_lines :=
        if (listStartsWith (pyStrip line) (pys "CMD")
              || listStartsWith (pyStrip line) (pys "ENTRYPOINT"))
            && !(origLines.any (fun l => pyIn (pys "USER") l)) then
          fixed_lines ++ [pys "USER 1000\n"]
        else fixed_lines
      dockerFixLinesGo origLines (fixed_lines ++ [line]) rest

/-- The whole-file edit of fix_docker: readlines, rewrite, writelines. -/
def dockerFixContent (content : PyStr) : Except PyStr PyStr := do
  let lines := readLines content
  let fixed ← dockerFixLinesGo lines [] lines
  pure fixed.flatten

/-- The per-Dockerfile body of fix_docker: read the file, rewrite its
lines, write it back. -/
def fixDockerFile (fs : Fs) (dockerfile : PyStr) : Except PyStr Fs :=
  match fs dockerfile with
  | none => Except.error (pys "FileNotFoundError")
  | some content => do
    let fixed ← dockerFixContent content
    pure (Fs.write fs dockerfile fixed)

/-- The fix_docker node of fixers.py. -/
def fix_docker (env : Env) (fs : Fs) (state : CICDState) :
    Except PyStr (CICDState × Fs × List Cmd) := do
  let (state, ok) := can_attempt_fix state .docker
  if !ok then return (state, fs, [])
  let files := state.files.get .docker
  if files.isEmpty then return (state, fs, [])
  let fs ← files.foldlM fixDockerFile fs
  let state := increment_fix_attempt env state .docker
  let state := { state with files_fixed := state.files_fixed ++ files, fix_applied := true }
  return (state, fs, [])

/-- The per-chart content edit of fix_helm: in the fixed field order
apiVersion, name, version, insert any field that is textually absent,
checking each field against the content as already extended. -/
def fixChartContent (chart_dir : PyStr) (content : PyStr) : PyStr :=
  let content :=
    if pyIn (pys "apiVersion:") content then content
    else pys "apiVersion: v2\n" ++ content
  let content :=
    if pyIn (pys "name:") content then content
    else content ++ pys "\nname: " ++ pyBasename chart_dir ++ pys "\n"
  let content :=
    if pyIn (pys "version:") content then content
    else content ++ pys "\nversion: 0.1.0\n"
  content

/-- The fix_helm node of fixers.py, with fuel for the unguarded upward
chart walk. -/
def fix_helm (fuel : Nat) (env : Env) (fs : Fs) (state : CICDState) :
    Except PyStr (CICDState × Fs × List Cmd) := do
  let (state, ok) := can_attempt_fix state .helm
  if !ok then return (state, fs, [])
  let files := state.files.get .helm
  if files.isEmpty then return (state, fs, [])
  let chart_dirs := chartDirs fs fuel files
  let fs := chart_dirs.foldl
    (fun (fs : Fs) chart_dir =>
      let chart_yaml := pyJoin chart_dir (pys "Chart.yaml")
      match fs chart_yaml with
      | some content => Fs.write fs chart_yaml (fixChartContent chart_dir content)
      | none => fs)
    fs
  let state := increment_fix_attempt env state .helm
  let state := { state with files_fixed := state.files_fixed ++ files, fix_applied := true }
  return (state, fs, [])

/-- The working directory release_docker builds in: the directory of the
Dockerfile, or dot when that is empty. -/
def dockerDirOf (dockerfile : PyStr) : PyStr := pyOr (pyDirname dockerfile) (pys ".")

/-- The image tag release_docker assigns: lowercased basename of the
absolute build directory, a colon, and the run timestamp. -/
def dockerBuildTag (env : Env) (dockerfile : PyStr) : PyStr :=
  pyLower (pyBasename (env.abspath (dockerDirOf dockerfile))) ++ ':' :: env.nowStamp

/-- The docker build command release_docker issues for one Dockerfile. -/
def dockerBuildCmd (env : Env) (dockerfile : PyStr) : List PyStr :=
  [pys "docker", pys "build", pys "-t", dockerBuildTag env dockerfile, pys "."]

/-- The per-Dockerfile loop body of release_docker: build, and collect
the tag only when the build passed. -/
def releaseDockerStep (env : Env) (acc : List PyStr × List Cmd) (dockerfile : PyStr) :
    List PyStr × List Cmd :=
  let (built_images, log) := acc
  let (passed, _, _) := run_command env (dockerBuildCmd env dockerfile) (some (dockerDirOf dockerfile))
  (if passed then built_images ++ [dockerBuildTag env dockerfile] else built_images,
   log ++ [(dockerBuildCmd env dockerfile, some (dockerDirOf dockerfile))])

/-- The release_docker node of release.py: build one image per
Dockerfile, tag from the directory basename and timestamp, collect the
successful tags, record success exactly when at least one image built. -/
def release_docker (env : Env) (state : CICDState) : CICDState × List Cmd :=
  let files := state.files.get .docker
  if files.isEmpty then
    ({ state with release_results := state.release_results.set .docker (some { status := pys "skipped" }) }, [])
  else
    let (built_images, log) := files.foldl (releaseDockerStep env) ([], [])
    ({ state with
        docker_images_built := built_images
        release_results := state.release_results.set .docker
          (some { status := if built_images.isEmpty then pys "failed" else pys "success",
                  images := built_images }) }, log)

/-- The helm package command release_helm issues for one chart directory. -/
def helmPackageCmd (chart_dir : PyStr) : List PyStr :=
  [pys "helm", pys "package", chart_dir, pys "--destination", pys "./dist"]

/-- The per-chart loop body of release_helm: package, and collect the
chart name only when packaging passed. -/
def releaseHelmStep (env : Env) (acc : List PyStr × List Cmd) (chart_dir : PyStr) :
    List PyStr × List Cmd :=
  let (released_charts, log) := acc
  let (passed, _, _) := run_command env (helmPackageCmd chart_dir) none
  (if passed then released_charts ++ [pyBasename chart_dir] else released_charts,
   log ++ [(helmPackageCmd chart_dir, none)])

/-- The release_helm node of release.py: package each resolved chart
directory, collect the successful chart names, record success exactly
when at least one chart packaged. -/
def release_helm (fuel : Nat) (env : Env) (fs : Fs) (state : CICDState) : CICDState × List Cmd :=
  let files := state.files.get .helm
  if files.isEmpty then
    ({ state with release_results := state.release_results.set .helm (some { status := pys "skipped" }) }, [])
  else
    let chart_dirs := chartDirs fs fuel files
    let (released_charts, log) := chart_dirs.foldl (releaseHelmStep env) ([], [])
    ({ state with
        helm_charts_released := released_charts
        release_results := state.release_results.set .helm
          (some { status := if released_charts.isEmpty then pys "failed" else pys "success",
                  charts := released_charts }) }, log)

/-- The terraform plan command of release_terraform. -/
def tfPlanCmd : List PyStr := [pys "terraform", pys "plan", pys "-out=tfplan"]

/-- The terraform apply command of release_terraform. -/
def tfApplyCmd : List PyStr := [pys "terraform", pys "apply", pys "-auto-approve", pys "tfplan"]

/-- The per-directory loop of release_terraform: plan, then apply only
when the plan passed; the first failing plan or apply returns
immediately with a failed result, leaving the remaining directories
unvisited; the success result is written only after the loop. -/
def releaseTerraformGo (env : Env) (state : CICDState) (log : List Cmd) :
    List PyStr → CICDState × List Cmd
  | [] =>
    ({ state with release_results := state.release_results.set .terraform (some { status := pys "success" }) }, log)
  | tf_dir :: rest =>
    let (p1, _, e1) := run_command env tfPlanCmd (some tf_dir)
    let log := log ++ [(tfPlanCmd, some tf_dir)]
    if p1 then
      let (p2, _, e2) := run_command env tfApplyCmd (some tf_dir)
      let log := log ++ [(tfApplyCmd, some tf_dir)]
      if p2 then releaseTerraformGo env { state with terraform_applied := true } log rest
      else
        ({ state with release_results := state.release_results.set .terraform (some { status := pys "failed", err := some e2 }) }, log)
    else
      ({ state with release_results := state.release_results.set .terraform (some { status := pys "failed", err := some e1 }) }, log)

/-- The release_terraform node of release.py. -/
def release_terraform (env : Env) (state : CICDState) : CICDState × List Cmd :=
  let files := state.files.get .terraform
  if files.isEmpty then
    ({ state with release_results := state.release_results.set .terraform (some { status := pys "skipped" }) }, [])
  else releaseTerraformGo env state [] (dedupFirst (files.map pyDirname))

/-- One pass of the parallel validation fan-in followed by aggregation,
in the edge order of graph.py. -/
def validatePhase (fuel : Nat) (env : Env) (fs : Fs) (state : CICDState) : CICDState :=
  collect_errors (validate_helm fuel env fs (validate_docker env (validate_terraform env state)))

/-- The compiled graph of graph.py from the first validation onward:
validate all three categories, aggregate, decide; release runs the
three release stages and ends; fix runs the fixer chain and loops back
to validation; fail ends through fail_workflow.  The loop fuel bounds
the number of fix cycles the model executes; ok none means the fuel ran
out, and a raised Python exception is the error case. -/
def workflowLoop (walkFuel : Nat) (env : Env) :
    Nat → Fs → CICDState → Except PyStr (Option CICDState)
  | 0, _, _ => Except.ok none
  | n + 1, fs, state => do
    let state := validatePhase walkFuel env fs state
    let (state, label) := decide_next_action state
    if label = pys "release" then
      let state := prepare_release state
      let (state, _) := release_docker env state
      let (state, _) := release_helm walkFuel env fs state
      let (state, _) := release_terraform env state
      return some state
    else if label = pys "fix" then do
      let (state, fs, _) ← fix_terraform env fs state
      let (state, fs, _) ← fix_docker env fs state
      let (state, fs, _) ← fix_helm walkFuel env fs state
      workflowLoop walkFuel env n fs state
    else
      return some (fail_workflow state)

/-- The per-category seeding of fix_attempts that run_cicd_agent in
graph.py performs before invoking the graph. -/
def seedFixAttempts (state : CICDState) (max_fix_attempts : Int) : CICDState :=
  let mk := fun (ft : FileType) =>
    some ({ file_type := ft.key, attempts := 0, max_attempts := max_fix_attempts,
            last_fix_time := none } : FixAttempt)
  { state with fix_attempts := ⟨mk .terraform, mk .docker, mk .helm⟩ }

/-- The run_cicd_agent driver of graph.py: initial state, seeded
budgets, discovery, then the validate–decide loop. -/
def run_cicd_agent (walkFuel loopFuel : Nat) (env : Env) (fs : Fs)
    (user_paths : List PyStr) (max_fix_attempts : Int) : Except PyStr (Option CICDState) :=
  let state := seedFixAttempts (create_initial_state user_paths) max_fix_attempts
  let state := discover_files env state
  workflowLoop walkFuel env loopFuel fs state

/-- The exit code of main in main.py: zero when the final status is
success, one otherwise, and one when an exception escaped the workflow;
none when the model ran out of loop fuel. -/
def mainExitCode (result : Except PyStr (Option CICDState)) : Option Int :=
  match result with
  | .error _ => some 1
  | .ok none => none
  | .ok (some state) => some (if state.status = pys "success" then 0 else 1)

/-- The terminal status of a completed run, when the model completed. -/
def finalStatus (result : Except PyStr (Option CICDState)) : Option PyStr :=
  match result with
  | .ok (some state) => some state.status
  | _ => none

/-- Whether both terraform plan and terraform apply pass in a directory
under the given environment. -/
def tfDirOk (env : Env) (tf_dir : PyStr) : Bool :=
  (run_command env tfPlanCmd (some tf_dir)).1 && (run_command env tfApplyCmd (some tf_dir)).1

/-- Some category has nonzero collected errors and attempts strictly
below max_attempts, read with the same dict defaults the Decision
Engine reads. -/
abbrev someCatUnderBudget (state : CICDState) : Prop :=
  (state.collected_errors.get .terraform ≠ []
      ∧ attemptsOf state .terraform < maxAttemptsOf state .terraform)
  ∨ (state.collected_errors.get .docker ≠ []
      ∧ attemptsOf state .docker < maxAttemptsOf state .docker)
  ∨ (state.collected_errors.get .helm ≠ []
      ∧ attemptsOf state .helm < maxAttemptsOf state .helm)

/-- The final state of a model run, when one was produced. -/
def finalState (result : Except PyStr (Option CICDState)) : Option CICDState :=
  match result with
  | .ok s? => s?
  | .error _ => none

/-- An environment that lists no files under any root, with every
external command passing. -/
def envNoFiles : Env where
  runCmd := fun _ _ => (true, [], [])
  walkFiles := fun _ => []
  pathExists := fun _ => true
  abspath := fun p => p
  nowIso := []
  nowStamp := []

/-- An empty filesystem. -/
def fsEmpty : Fs := fun _ => none

/-- An environment in which every external command fails. -/
def envAllFail : Env :=
  { envNoFiles with runCmd := fun _ _ => (false, [], pys "tool failure") }

/-- A state whose only collected errors are in terraform, with that
category's budget exhausted. -/
def stBudgetSpent : CICDState :=
  { create_initial_state [] with
    collected_errors := ⟨[pys "tf error"], [], []⟩
    fix_attempts := ⟨some ⟨pys "terraform", 3, 3, none⟩, none, none⟩ }

/-- A state with one discovered file per category and every category's
budget exhausted at three of three attempts. -/
def stSpentAll : CICDState :=
  { create_initial_state [] with
    files := ⟨[pys "infra/main.tf"], [pys "app/Dockerfile"], [pys "chart/values.yaml"]⟩
    fix_attempts := ⟨some ⟨pys "terraform", 3, 3, none⟩, some ⟨pys "docker", 3, 3, none⟩,
                     some ⟨pys "helm", 3, 3, none⟩⟩ }

/-- A state with one discovered terraform file. -/
def stTfFiles : CICDState :=
  { create_initial_state [] with files := ⟨[pys "/infra/main.tf"], [], []⟩ }

/-- A state with one discovered docker file and one helm file. -/
def stRelFiles : CICDState :=
  { create_initial_state [] with files := ⟨[], [pys "app/Dockerfile"], [pys "app/values.yaml"]⟩ }

/-- The state fix_docker returns when invoked on the fresh initial state:
only the lazily created docker budget entry is added. -/
def stDockerSeeded : CICDState :=
  { create_initial_state [] with
    fix_attempts := ⟨none, some ⟨pys "docker", 0, 3, none⟩, none⟩ }

/-- The distinct terraform directories the terraform release stage
iterates, as release_terraform computes them. -/
def tfReleaseDirs (s : CICDState) : List PyStr :=
  dedupFirst ((s.files.get .terraform).map pyDirname)

theorem listStartsWith_nil (s : PyStr) : listStartsWith s [] = true := by
  cases s <;> rfl

theorem listStartsWith_refl (n : PyStr) : listStartsWith n n = true := by
  induction n with
  | nil => rfl
  | cons c rest ih => simp [listStartsWith, ih]

theorem listStartsWith_append_of {s n : PyStr} (b : PyStr) (h : listStartsWith s n = true) :
    listStartsWith (s ++ b) n = true := by
  induction n generalizing s with
  | nil => exact listStartsWith_nil _
  | cons m ms ih =>
    cases s with
    | nil => simp [listStartsWith] at h
    | cons x xs =>
      simp only [listStartsWith, Bool.and_eq_true] at h
      simp only [List.cons_append, listStartsWith, Bool.and_eq_true]
      exact ⟨h.1, ih h.2⟩

theorem pyIn_nil_needle (s : PyStr) : pyIn [] s = true := by
  cases s with
  | nil => rfl
  | cons c rest => simp [pyIn, listStartsWith]

theorem pyIn_append_left {n a : PyStr} (b : PyStr) (h : pyIn n a = true) :
    pyIn n (a ++ b) = true := by
  induction a with
  | nil =>
    simp only [pyIn, List.isEmpty_iff] at h
    subst h
    simpa using pyIn_nil_needle b
  | cons x xs ih =>
    simp only [pyIn, Bool.or_eq_true] at h
    simp only [List.cons_append, pyIn, Bool.or_eq_true]
    cases h with
    | inl h => exact Or.inl (by simpa using listStartsWith_append_of (s := x :: xs) b h)
    | inr h => exact Or.inr (ih h)

theorem pyIn_append_right {n b : PyStr} (a : PyStr) (h : pyIn n b = true) :
    pyIn n (a ++ b) = true := by
  induction a with
  | nil => simpa using h
  | cons x xs ih =>
    simp only [List.cons_append, pyIn, Bool.or_eq_true]
    exact Or.inr ih

theorem pyIn_self (n : PyStr) : pyIn n n = true := by
  cases n with
  | nil => rfl
  | cons c rest => simp [pyIn, listStartsWith_refl]

theorem listStartsWith_append_false {s n : PyStr} (b : PyStr)
    (hs : listStartsWith s n = false) (hd : ∀ c, b.head? = some c → c ∉ n) :
    listStartsWith (s ++ b) n = false := by
  induction s generalizing n with
  | nil =>
    cases n with
    | nil => simp [listStartsWith] at hs
    | cons m ms =>
      cases b with
      | nil => rfl
      | cons c bs =>
        have hcm : c ∉ m :: ms := hd c rfl
        simp only [List.nil_append, listStartsWith, Bool.and_eq_false_iff]
        left
        simp only [decide_eq_false_iff_not]
        intro hEq
        exact hcm (hEq ▸ List.mem_cons_self c ms)
  | cons x xs ih =>
    cases n with
    | nil => simp [listStartsWith] at hs
    | cons m ms =>
      simp only [listStartsWith, Bool.and_eq_false_iff] at hs
      simp only [List.cons_append, listStartsWith, Bool.and_eq_false_iff]
      cases hs with
      | inl h => exact Or.inl h
      | inr h =>
        right
        exact ih h (fun c hc hmem => hd c hc (List.mem_cons_of_mem m hmem))

theorem pyIn_append_false {n a b : PyStr} (ha : pyIn n a = false) (hb : pyIn n b = false)
    (hd : ∀ c, b.head? = some c → c ∉ n) : pyIn n (a ++ b) = false := by
  induction a with
  | nil => simpa using hb
  | cons x xs ih =>
    simp only [pyIn, Bool.or_eq_false_iff] at ha
    simp only [List.cons_append, pyIn, Bool.or_eq_false_iff]
    exact ⟨listStartsWith_append_false b ha.1 hd, ih ha.2⟩

theorem Cat3.get_set {α : Type} (m : Cat3 α) (ft ft' : FileType) (v : α) :
    (m.set ft v).get ft' = if ft' = ft then v else m.get ft' := by
  cases ft <;> cases ft' <;> simp [Cat3.get, Cat3.set]

theorem needsFix_any_iff (s : CICDState) :
    ([FileType.terraform, FileType.docker, FileType.helm].any (catNeedsFix s) = true)
      ↔ someCatUnderBudget s := by
  simp [catNeedsFix, someCatUnderBudget, List.any_cons, List.any_nil,
    Bool.and_eq_true, Bool.or_eq_true, List.isEmpty_iff, decide_eq_true_eq]

/-- C2: the Decision Engine is a total three-way case split on the
aggregated state: zero collected errors across all categories route to
release; nonzero errors with at least one erroring category strictly
under its budget route to fix and set status fixing; otherwise it
routes to fail, sets status failed, and sets error_message to a summary
containing the remaining error count. -/
theorem decide_next_action_three_way (s : CICDState) :
    (totalErrors s.collected_errors = 0 →
      decide_next_action s = ({ s with release_ready := true }, pys "release"))
    ∧ (totalErrors s.collected_errors ≠ 0 → someCatUnderBudget s →
        (decide_next_action s).1.status = pys "fixing"
        ∧ (decide_next_action s).2 = pys "fix")
    ∧ (totalErrors s.collected_errors ≠ 0 → ¬ someCatUnderBudget s →
        (decide_next_action s).2 = pys "fail"
        ∧ (decide_next_action s).1.status = pys "failed"
        ∧ (decide_next_action s).1.error_message
            = some (pys "Max fix attempts reached. Errors remain: "
                ++ natToStr (totalErrors s.collected_errors))
        ∧ ∀ msg, (decide_next_action s).1.error_message = some msg →
            pyIn (natToStr (totalErrors s.collected_errors)) msg = true) := by
  refine ⟨fun h0 => by simp [decide_next_action, h0], fun hne hfix => ?_, fun hne hnofix => ?_⟩
  · have hany : [FileType.terraform, FileType.docker, FileType.helm].any (catNeedsFix s) = true :=
      (needsFix_any_iff s).2 hfix
    constructor <;> simp [decide_next_action, hne, hany]
  · have hany : [FileType.terraform, FileType.docker, FileType.helm].any (catNeedsFix s) = false := by
      cases h' : [FileType.terraform, FileType.docker, FileType.helm].any (catNeedsFix s) with
      | true => exact absurd ((needsFix_any_iff s).1 h') hnofix
      | false => rfl
    refine ⟨by simp [decide_next_action, hne, hany], by simp [decide_next_action, hne, hany],
      by simp [decide_next_action, hne, hany], ?_⟩
    intro msg hmsg
    have hm : (decide_next_action s).1.error_message
        = some (pys "Max fix attempts reached. Errors remain: "
            ++ natToStr (totalErrors s.collected_errors)) := by
      simp [decide_next_action, hne, hany]
    rw [hm] at hmsg
    have : msg = pys "Max fix attempts reached. Errors remain: "
        ++ natToStr (totalErrors s.collected_errors) := by
      exact (Option.some_inj.mp hmsg).symm
    rw [this]
    exact pyIn_append_right _ (pyIn_self _)

/-- Witness for decide_next_action_three_way: a state with one terraform
error and the terraform budget exhausted routes to fail with status
failed. -/
theorem decide_next_action_three_way_witness :
    (decide_next_action stBudgetSpent).2 = pys "fail"
    ∧ (decide_next_action stBudgetSpent).1.status = pys "failed" := by
  have h := (decide_next_action_three_way stBudgetSpent).2.2 (by decide) (by decide)
  exact ⟨h.1, h.2.1⟩

/-- C8: the Error Aggregator is idempotent and a pure function of
validation_results: rerunning it changes neither collected_errors nor
errors_by_file, and any two states with equal validation_results
aggregate to equal collected_errors and errors_by_file, regardless of
previously computed collected_errors or errors_by_file. -/
theorem collect_errors_idempotent_pure :
    (∀ s, (collect_errors (collect_errors s)).collected_errors
        = (collect_errors s).collected_errors
      ∧ (collect_errors (collect_errors s)).errors_by_file
        = (collect_errors s).errors_by_file)
    ∧ (∀ s t, s.validation_results = t.validation_results →
        (collect_errors s).collected_errors = (collect_errors t).collected_errors
        ∧ (collect_errors s).errors_by_file = (collect_errors t).errors_by_file) := by
  constructor
  · intro s
    exact ⟨rfl, rfl⟩
  · intro s t h
    constructor <;> simp [collect_errors, h]

/-- Witness for collect_errors_idempotent_pure: two different states
sharing empty validation_results aggregate identically. -/
theorem collect_errors_idempotent_pure_witness :
    (collect_errors stBudgetSpent).collected_errors
      = (collect_errors (create_initial_state [])).collected_errors
    ∧ (collect_errors stBudgetSpent).errors_by_file
      = (collect_errors (create_initial_state [])).errors_by_file :=
  collect_errors_idempotent_pure.2 stBudgetSpent (create_initial_state []) rfl

/-- C5: a Fixer invoked with its category's attempts equal to its
max_attempts is a no-op: the resulting state, filesystem and command
log are exactly the inputs, so it performs zero file mutations, leaves
attempts and every other state field unchanged, and records no fix
timestamp. -/
theorem fixer_noop_when_budget_exhausted :
    (∀ env fs s fa, s.fix_attempts.get .terraform = some fa →
        fa.attempts = fa.max_attempts → fix_terraform env fs s = Except.ok (s, fs, []))
    ∧ (∀ env fs s fa, s.fix_attempts.get .docker = some fa →
        fa.attempts = fa.max_attempts → fix_docker env fs s = Except.ok (s, fs, []))
    ∧ (∀ fuel env fs s fa, s.fix_attempts.get .helm = some fa →
        fa.attempts = fa.max_attempts → fix_helm fuel env fs s = Except.ok (s, fs, [])) := by
  refine ⟨?_, ?_, ?_⟩
  · intro env fs s fa h1 h2
    simp [fix_terraform, can_attempt_fix, get_or_create_fix_attempt, h1, h2]
    rfl
  · intro env fs s fa h1 h2
    simp [fix_docker, can_attempt_fix, get_or_create_fix_attempt, h1, h2]
    rfl
  · intro fuel env fs s fa h1 h2
    simp [fix_helm, can_attempt_fix, get_or_create_fix_attempt, h1, h2]
    rfl

/-- Witness for fixer_noop_when_budget_exhausted: with every category at
three of three attempts and files present in each category, all three
fixers return the state and filesystem untouched with no commands. -/
theorem fixer_noop_when_budget_exhausted_witness :
    fix_terraform envNoFiles fsEmpty stSpentAll = Except.ok (stSpentAll, fsEmpty, [])
    ∧ fix_docker envNoFiles fsEmpty stSpentAll = Except.ok (stSpentAll, fsEmpty, [])
    ∧ fix_helm 4 envNoFiles fsEmpty stSpentAll = Except.ok (stSpentAll, fsEmpty, []) :=
  ⟨fixer_noop_when_budget_exhausted.1 envNoFiles fsEmpty stSpentAll
      ⟨pys "terraform", 3, 3, none⟩ rfl rfl,
   fixer_noop_when_budget_exhausted.2.1 envNoFiles fsEmpty stSpentAll
      ⟨pys "docker", 3, 3, none⟩ rfl rfl,
   fixer_noop_when_budget_exhausted.2.2 4 envNoFiles fsEmpty stSpentAll
      ⟨pys "helm", 3, 3, none⟩ rfl rfl⟩

theorem attemptsOf_get_or_create (s : CICDState) (ft ft' : FileType) :
    attemptsOf (get_or_create_fix_attempt s ft).1 ft' = attemptsOf s ft'
    ∧ maxAttemptsOf (get_or_create_fix_attempt s ft).1 ft' = maxAttemptsOf s ft' := by
  unfold get_or_create_fix_attempt attemptsOf maxAttemptsOf
  cases h : s.fix_attempts.get ft with
  | some fa => simp
  | none =>
    by_cases hft : ft' = ft
    · subst hft
      simp [Cat3.get_set, h]
    · simp [Cat3.get_set, hft]

theorem can_attempt_fix_spec (s : CICDState) (ft : FileType) :
    (can_attempt_fix s ft).1 = (get_or_create_fix_attempt s ft).1
    ∧ ((can_attempt_fix s ft).2 = true ↔ attemptsOf s ft < maxAttemptsOf s ft) := by
  unfold can_attempt_fix get_or_create_fix_attempt attemptsOf maxAttemptsOf
  cases h : s.fix_attempts.get ft with
  | some fa => simp
  | none => simp

theorem attemptsOf_increment (env : Env) (s : CICDState) (ft ft' : FileType) :
    attemptsOf (increment_fix_attempt env s ft) ft'
      = (if ft' = ft then attemptsOf s ft + 1 else attemptsOf s ft')
    ∧ maxAttemptsOf (increment_fix_attempt env s ft) ft' = maxAttemptsOf s ft' := by
  unfold increment_fix_attempt get_or_create_fix_attempt attemptsOf maxAttemptsOf
  cases h : s.fix_attempts.get ft with
  | some fa =>
    by_cases hft : ft' = ft
    · subst hft
      simp [Cat3.get_set, h]
    · simp [Cat3.get_set, hft]
  | none =>
    by_cases hft : ft' = ft
    · subst hft
      simp [Cat3.get_set, h]
    · simp [Cat3.get_set, hft]

theorem releaseTerraformGo_fix_attempts (env : Env) (dirs : List PyStr) :
    ∀ s log, (releaseTerraformGo env s log dirs).1.fix_attempts = s.fix_attempts := by
  induction dirs with
  | nil => intro s log; rfl
  | cons d rest ih =>
    intro s log
    simp only [releaseTerraformGo]
    split
    · split
      · exact ih _ _
      · rfl
    · rfl


theorem fix_terraform_budget (env : Env) (fs : Fs) (s : CICDState)
    (out : CICDState × Fs × List Cmd) (h : fix_terraform env fs s = Except.ok out)
    (ft : FileType) :
    attemptsOf s ft ≤ attemptsOf out.1 ft
    ∧ maxAttemptsOf out.1 ft = maxAttemptsOf s ft
    ∧ (attemptsOf s ft ≤ maxAttemptsOf s ft → attemptsOf out.1 ft ≤ maxAttemptsOf out.1 ft) := by
  unfold fix_terraform at h
  rcases hc : can_attempt_fix s FileType.terraform with ⟨s1, ok⟩
  rw [hc] at h
  have hs1 : s1 = (get_or_create_fix_attempt s FileType.terraform).1 := by
    have h1 := (can_attempt_fix_spec s FileType.terraform).1
    rw [hc] at h1
    exact h1
  have hs1a : ∀ ft', attemptsOf s1 ft' = attemptsOf s ft' := fun ft' => by
    rw [hs1]
    exact (attemptsOf_get_or_create s FileType.terraform ft').1
  have hs1m : ∀ ft', maxAttemptsOf s1 ft' = maxAttemptsOf s ft' := fun ft' => by
    rw [hs1]
    exact (attemptsOf_get_or_create s FileType.terraform ft').2
  cases ok with
  | false =>
    simp [Bind.bind, Except.bind, pure, Except.pure] at h
    rw [← h]
    exact ⟨le_of_eq (hs1a ft).symm, hs1m ft, fun hb => by rw [hs1a ft, hs1m ft]; exact hb⟩
  | true =>
    by_cases hemp : (s1.files.get FileType.terraform).isEmpty
    · simp [hemp, Bind.bind, Except.bind, pure, Except.pure] at h
      rw [← h]
      exact ⟨le_of_eq (hs1a ft).symm, hs1m ft, fun hb => by rw [hs1a ft, hs1m ft]; exact hb⟩
    · have hlt : attemptsOf s FileType.terraform < maxAttemptsOf s FileType.terraform := by
        have h2 := (can_attempt_fix_spec s FileType.terraform).2
        rw [hc] at h2
        exact h2.1 rfl
      cases hfold : (dedupFirst ((s1.files.get FileType.terraform).map pyDirname)).foldlM
          (fixTerraformDir env) (fs, []) with
      | error e => simp [hemp, hfold, Bind.bind, Except.bind, pure, Except.pure] at h
      | ok pr =>
        rcases pr with ⟨fs', log⟩
        simp [hemp, hfold, Bind.bind, Except.bind, pure, Except.pure] at h
        rw [← h]
        show attemptsOf s ft ≤ attemptsOf (increment_fix_attempt env s1 FileType.terraform) ft
          ∧ maxAttemptsOf (increment_fix_attempt env s1 FileType.terraform) ft
            = maxAttemptsOf s ft
          ∧ (attemptsOf s ft ≤ maxAttemptsOf s ft →
              attemptsOf (increment_fix_attempt env s1 FileType.terraform) ft
                ≤ maxAttemptsOf (increment_fix_attempt env s1 FileType.terraform) ft)
        rw [(attemptsOf_increment env s1 FileType.terraform ft).1,
          (attemptsOf_increment env s1 FileType.terraform ft).2, hs1m ft]
        by_cases hft : ft = FileType.terraform
        · subst hft
          rw [if_pos rfl, hs1a FileType.terraform]
          exact ⟨by omega, rfl, fun _ => by omega⟩
        · rw [if_neg hft, hs1a ft]
          exact ⟨le_refl _, rfl, fun hb => hb⟩

theorem fix_docker_budget (env : Env) (fs : Fs) (s : CICDState)
    (out : CICDState × Fs × List Cmd) (h : fix_docker env fs s = Except.ok out)
    (ft : FileType) :
    attemptsOf s ft ≤ attemptsOf out.1 ft
    ∧ maxAttemptsOf out.1 ft = maxAttemptsOf s ft
    ∧ (attemptsOf s ft ≤ maxAttemptsOf s ft → attemptsOf out.1 ft ≤ maxAttemptsOf out.1 ft) := by
  unfold fix_docker at h
  rcases hc : can_attempt_fix s FileType.docker with ⟨s1, ok⟩
  rw [hc] at h
  have hs1 : s1 = (get_or_create_fix_attempt s FileType.docker).1 := by
    have h1 := (can_attempt_fix_spec s FileType.docker).1
    rw [hc] at h1
    exact h1
  have hs1a : ∀ ft', attemptsOf s1 ft' = attemptsOf s ft' := fun ft' => by
    rw [hs1]
    exact (attemptsOf_get_or_create s FileType.docker ft').1
  have hs1m : ∀ ft', maxAttemptsOf s1 ft' = maxAttemptsOf s ft' := fun ft' => by
    rw [hs1]
    exact (attemptsOf_get_or_create s FileType.docker ft').2
  cases ok with
  | false =>
    simp [Bind.bind, Except.bind, pure, Except.pure] at h
    rw [← h]
    exact ⟨le_of_eq (hs1a ft).symm, hs1m ft, fun hb => by rw [hs1a ft, hs1m ft]; exact hb⟩
  | true =>
    by_cases hemp : (s1.files.get FileType.docker).isEmpty
    · simp [hemp, Bind.bind, Except.bind, pure, Except.pure] at h
      rw [← h]
      exact ⟨le_of_eq (hs1a ft).symm, hs1m ft, fun hb => by rw [hs1a ft, hs1m ft]; exact hb⟩
    · cases hfold : (s1.files.get FileType.docker).foldlM fixDockerFile fs with
      | error e => simp [hemp, hfold, Bind.bind, Except.bind, pure, Except.pure] at h
      | ok fs' =>
        simp [hemp, hfold, Bind.bind, Except.bind, pure, Except.pure] at h
        rw [← h]
        show attemptsOf s ft ≤ attemptsOf (increment_fix_attempt env s1 FileType.docker) ft
          ∧ maxAttemptsOf (increment_fix_attempt env s1 FileType.docker) ft = maxAttemptsOf s ft
          ∧ (attemptsOf s ft ≤ maxAttemptsOf s ft →
              attemptsOf (increment_fix_attempt env s1 FileType.docker) ft
                ≤ maxAttemptsOf (increment_fix_attempt env s1 FileType.docker) ft)
        rw [(attemptsOf_increment env s1 FileType.docker ft).1,
          (attemptsOf_increment env s1 FileType.docker ft).2, hs1m ft]
        have hlt : attemptsOf s FileType.docker < maxAttemptsOf s FileType.docker := by
          have h2 := (can_attempt_fix_spec s FileType.docker).2
          rw [hc] at h2
          exact h2.1 rfl
        by_cases hft : ft = FileType.docker
        · subst hft
          rw [if_pos rfl, hs1a FileType.docker]
          exact ⟨by omega, rfl, fun _ => by omega⟩
        · rw [if_neg hft, hs1a ft]
          exact ⟨le_refl _, rfl, fun hb => hb⟩

theorem fix_helm_budget (fuel : Nat) (env : Env) (fs : Fs) (s : CICDState)
    (out : CICDState × Fs × List Cmd) (h : fix_helm fuel env fs s = Except.ok out)
    (ft : FileType) :
    attemptsOf s ft ≤ attemptsOf out.1 ft
    ∧ maxAttemptsOf out.1 ft = maxAttemptsOf s ft
    ∧ (attemptsOf s ft ≤ maxAttemptsOf s ft → attemptsOf out.1 ft ≤ maxAttemptsOf out.1 ft) := by
  unfold fix_helm at h
  rcases hc : can_attempt_fix s FileType.helm with ⟨s1, ok⟩
  rw [hc] at h
  have hs1 : s1 = (get_or_create_fix_attempt s FileType.helm).1 := by
    have h1 := (can_attempt_fix_spec s FileType.helm).1
    rw [hc] at h1
    exact h1
  have hs1a : ∀ ft', attemptsOf s1 ft' = attemptsOf s ft' := fun ft' => by
    rw [hs1]
    exact (attemptsOf_get_or_create s FileType.helm ft').1
  have hs1m : ∀ ft', maxAttemptsOf s1 ft' = maxAttemptsOf s ft' := fun ft' => by
    rw [hs1]
    exact (attemptsOf_get_or_create s FileType.helm ft').2
  cases ok with
  | false =>
    simp [Bind.bind, Except.bind, pure, Except.pure] at h
    rw [← h]
    exact ⟨le_of_eq (hs1a ft).symm, hs1m ft, fun hb => by rw [hs1a ft, hs1m ft]; exact hb⟩
  | true =>
    by_cases hemp : (s1.files.get FileType.helm).isEmpty
    · simp [hemp, Bind.bind, Except.bind, pure, Except.pure] at h
      rw [← h]
      exact ⟨le_of_eq (hs1a ft).symm, hs1m ft, fun hb => by rw [hs1a ft, hs1m ft]; exact hb⟩
    · simp [hemp, Bind.bind, Except.bind, pure, Except.pure] at h
      rw [← h]
      show attemptsOf s ft ≤ attemptsOf (increment_fix_attempt env s1 FileType.helm) ft
        ∧ maxAttemptsOf (increment_fix_attempt env s1 FileType.helm) ft = maxAttemptsOf s ft
        ∧ (attemptsOf s ft ≤ maxAttemptsOf s ft →
            attemptsOf (increment_fix_attempt env s1 FileType.helm) ft
              ≤ maxAttemptsOf (increment_fix_attempt env s1 FileType.helm) ft)
      rw [(attemptsOf_increment env s1 FileType.helm ft).1,
        (attemptsOf_increment env s1 FileType.helm ft).2, hs1m ft]
      have hlt : attemptsOf s FileType.helm < maxAttemptsOf s FileType.helm := by
        have h2 := (can_attempt_fix_spec s FileType.helm).2
        rw [hc] at h2
        exact h2.1 rfl
      by_cases hft : ft = FileType.helm
      · subst hft
        rw [if_pos rfl, hs1a FileType.helm]
        exact ⟨by omega, rfl, fun _ => by omega⟩
      · rw [if_neg hft, hs1a ft]
        exact ⟨le_refl _, rfl, fun hb => hb⟩

/-- C4: budget monotonicity across every operation of the workflow.
Every non-fixer node (aggregation, decision, prepare, fail, discovery,
the three validators, the three release stages) leaves fix_attempts
untouched, and every fixer that returns normally never decreases any
category's attempts, never changes any category's max_attempts, and
preserves attempts being at most max_attempts, so attempts never comes
to exceed max_attempts in any reachable state. -/
theorem fix_attempts_monotone_bounded :
    (∀ s, (collect_errors s).fix_attempts = s.fix_attempts)
    ∧ (∀ s, (decide_next_action s).1.fix_attempts = s.fix_attempts)
    ∧ (∀ s, (prepare_release s).fix_attempts = s.fix_attempts)
    ∧ (∀ s, (fail_workflow s).fix_attempts = s.fix_attempts)
    ∧ (∀ env s, (discover_files env s).fix_attempts = s.fix_attempts)
    ∧ (∀ env s, (validate_terraform env s).fix_attempts = s.fix_attempts)
    ∧ (∀ env s, (validate_docker env s).fix_attempts = s.fix_attempts)
    ∧ (∀ fuel env fs s, (validate_helm fuel env fs s).fix_attempts = s.fix_attempts)
    ∧ (∀ env s, (release_docker env s).1.fix_attempts = s.fix_attempts)
    ∧ (∀ fuel env fs s, (release_helm fuel env fs s).1.fix_attempts = s.fix_attempts)
    ∧ (∀ env s, (release_terraform env s).1.fix_attempts = s.fix_attempts)
    ∧ (∀ env fs s out ft, fix_terraform env fs s = Except.ok out →
        attemptsOf s ft ≤ attemptsOf out.1 ft
        ∧ maxAttemptsOf out.1 ft = maxAttemptsOf s ft
        ∧ (attemptsOf s ft ≤ maxAttemptsOf s ft →
            attemptsOf out.1 ft ≤ maxAttemptsOf out.1 ft))
    ∧ (∀ env fs s out ft, fix_docker env fs s = Except.ok out →
        attemptsOf s ft ≤ attemptsOf out.1 ft
        ∧ maxAttemptsOf out.1 ft = maxAttemptsOf s ft
        ∧ (attemptsOf s ft ≤ maxAttemptsOf s ft →
            attemptsOf out.1 ft ≤ maxAttemptsOf out.1 ft))
    ∧ (∀ fuel env fs s out ft, fix_helm fuel env fs s = Except.ok out →
        attemptsOf s ft ≤ attemptsOf out.1 ft
        ∧ maxAttemptsOf out.1 ft = maxAttemptsOf s ft
        ∧ (attemptsOf s ft ≤ maxAttemptsOf s ft →
            attemptsOf out.1 ft ≤ maxAttemptsOf out.1 ft)) := by
  refine ⟨fun s => rfl, ?_, fun s => rfl, fun s => rfl, fun env s => rfl, ?_, ?_, ?_, ?_, ?_, ?_,
    fun env fs s out ft h => fix_terraform_budget env fs s out h ft,
    fun env fs s out ft h => fix_docker_budget env fs s out h ft,
    fun fuel env fs s out ft h => fix_helm_budget fuel env fs s out h ft⟩
  · intro s
    unfold decide_next_action
    dsimp only
    split
    · rfl
    · split <;> rfl
  · intro env s
    unfold validate_terraform
    dsimp only
    split <;> rfl
  · intro env s
    unfold validate_docker
    dsimp only
    split <;> rfl
  · intro fuel env fs s
    unfold validate_helm
    dsimp only
    split <;> rfl
  · intro env s
    unfold release_docker
    dsimp only
    split <;> rfl
  · intro fuel env fs s
    unfold release_helm
    dsimp only
    split <;> rfl
  · intro env s
    unfold release_terraform
    dsimp only
    split
    · rfl
    · exact releaseTerraformGo_fix_attempts env _ s []

/-- Witness for fix_attempts_monotone_bounded: running fix_docker on the
fresh initial state lazily creates the docker budget entry and keeps
attempts at most max_attempts. -/
theorem fix_attempts_monotone_bounded_witness :
    attemptsOf stDockerSeeded FileType.docker ≤ maxAttemptsOf stDockerSeeded FileType.docker :=
  (fix_attempts_monotone_bounded.2.2.2.2.2.2.2.2.2.2.2.2.1
    envNoFiles fsEmpty (create_initial_state []) (stDockerSeeded, fsEmpty, [])
    FileType.docker rfl).2.2 (by decide)

theorem pyIn_name_after_v2 (t : PyStr) :
    pyIn (pys "name:") (pys "apiVersion: v2\n" ++ t) = pyIn (pys "name:") t := by
  simp [pys, pyIn, listStartsWith]

theorem pyIn_version_after_v2 (t : PyStr) :
    pyIn (pys "version:") (pys "apiVersion: v2\n" ++ t) = pyIn (pys "version:") t := by
  simp [pys, pyIn, listStartsWith]

theorem pyIn_version_after_nameTag (t : PyStr) :
    pyIn (pys "version:") (pys "\nname: " ++ t) = pyIn (pys "version:") t := by
  simp [pys, pyIn, listStartsWith]

theorem pyIn_version_nameSegment (bn : PyStr)
    (hbn : pyIn (pys "version:") bn = false) :
    pyIn (pys "version:") (pys "\nname: " ++ (bn ++ pys "\n")) = false := by
  rw [pyIn_version_after_nameTag]
  refine pyIn_append_false hbn (by decide) ?_
  intro c hc
  simp [pys] at hc
  subst hc
  decide

theorem pyIn_nameDefault_inserted (c1 bn : PyStr) :
    pyIn (pys "name: " ++ bn) (c1 ++ (pys "\nname: " ++ (bn ++ pys "\n"))) = true := by
  apply pyIn_append_right
  show pyIn (pys "name: " ++ bn) ('\n' :: (pys "name: " ++ (bn ++ pys "\n"))) = true
  simp only [pyIn, Bool.or_eq_true]
  right
  exact Or.inl (listStartsWith_append_of (pys "\n") (listStartsWith_refl (pys "name: " ++ bn)))

theorem fixChartContent_assoc (chart_dir content : PyStr) :
    fixChartContent chart_dir content =
      (if pyIn (pys "version:")
          (if pyIn (pys "name:")
              (if pyIn (pys "apiVersion:") content then content
               else pys "apiVersion: v2\n" ++ content) then
            (if pyIn (pys "apiVersion:") content then content
             else pys "apiVersion: v2\n" ++ content)
           else
            (if pyIn (pys "apiVersion:") content then content
             else pys "apiVersion: v2\n" ++ content)
              ++ (pys "\nname: " ++ (pyBasename chart_dir ++ pys "\n"))) then
        (if pyIn (pys "name:")
            (if pyIn (pys "apiVersion:") content then content
             else pys "apiVersion: v2\n" ++ content) then
          (if pyIn (pys "apiVersion:") content then content
           else pys "apiVersion: v2\n" ++ content)
         else
          (if pyIn (pys "apiVersion:") content then content
           else pys "apiVersion: v2\n" ++ content)
            ++ (pys "\nname: " ++ (pyBasename chart_dir ++ pys "\n")))
       else
        (if pyIn (pys "name:")
            (if pyIn (pys "apiVersion:") content then content
             else pys "apiVersion: v2\n" ++ content) then
          (if pyIn (pys "apiVersion:") content then content
           else pys "apiVersion: v2\n" ++ content)
         else
          (if pyIn (pys "apiVersion:") content then content
           else pys "apiVersion: v2\n" ++ content)
            ++ (pys "\nname: " ++ (pyBasename chart_dir ++ pys "\n")))
          ++ pys "\nversion: 0.1.0\n") := by
  unfold fixChartContent
  simp [List.append_assoc]

theorem pyIn_name_nameSegment (t : PyStr) :
    pyIn (pys "name:") (pys "\nname: " ++ t) = true := by
  simp [pys, pyIn, listStartsWith]

/-- C6 (amended): for every Chart.yaml content with one of the three
required fields textually absent, provided the chart directory basename
does not itself contain the text of the version field label, the Helm
fixer content edit leaves all three fields textually present, and each
missing one is inserted with its fixed default: apiVersion v2, the
chart directory basename as name, version 0.1.0. -/
theorem helm_fixer_inserts_missing_fields (chart_dir content : PyStr)
    (hbn : pyIn (pys "version:") (pyBasename chart_dir) = false)
    (hmiss : pyIn (pys "apiVersion:") content = false
      ∨ pyIn (pys "name:") content = false
      ∨ pyIn (pys "version:") content = false) :
    pyIn (pys "apiVersion:") (fixChartContent chart_dir content) = true
    ∧ pyIn (pys "name:") (fixChartContent chart_dir content) = true
    ∧ pyIn (pys "version:") (fixChartContent chart_dir content) = true
    ∧ (pyIn (pys "apiVersion:") content = false →
        pyIn (pys "apiVersion: v2") (fixChartContent chart_dir content) = true)
    ∧ (pyIn (pys "name:") content = false →
        pyIn (pys "name: " ++ pyBasename chart_dir) (fixChartContent chart_dir content) = true)
    ∧ (pyIn (pys "version:") content = false →
        pyIn (pys "version: 0.1.0") (fixChartContent chart_dir content) = true) := by
  rw [fixChartContent_assoc]
  set bn := pyBasename chart_dir with hbneq
  set c1 := (if pyIn (pys "apiVersion:") content then content
             else pys "apiVersion: v2\n" ++ content) with hc1
  set c2 := (if pyIn (pys "name:") c1 then c1
             else c1 ++ (pys "\nname: " ++ (bn ++ pys "\n"))) with hc2
  set c3 := (if pyIn (pys "version:") c2 then c2
             else c2 ++ pys "\nversion: 0.1.0\n") with hc3
  have f1 : pyIn (pys "apiVersion:") c1 = true := by
    rw [hc1]
    by_cases hA : pyIn (pys "apiVersion:") content = true
    · rw [if_pos hA]
      exact hA
    · rw [if_neg hA]
      exact pyIn_append_left content (by decide)
  have f2 : pyIn (pys "name:") c1 = pyIn (pys "name:") content := by
    rw [hc1]
    by_cases hA : pyIn (pys "apiVersion:") content = true
    · rw [if_pos hA]
    · rw [if_neg hA, pyIn_name_after_v2]
  have f3 : pyIn (pys "version:") c1 = pyIn (pys "version:") content := by
    rw [hc1]
    by_cases hA : pyIn (pys "apiVersion:") content = true
    · rw [if_pos hA]
    · rw [if_neg hA, pyIn_version_after_v2]
  have lift12 : ∀ n, pyIn n c1 = true → pyIn n c2 = true := by
    intro n h
    rw [hc2]
    by_cases hN : pyIn (pys "name:") c1 = true
    · rw [if_pos hN]
      exact h
    · rw [if_neg hN]
      exact pyIn_append_left _ h
  have lift23 : ∀ n, pyIn n c2 = true → pyIn n c3 = true := by
    intro n h
    rw [hc3]
    by_cases hV : pyIn (pys "version:") c2 = true
    · rw [if_pos hV]
      exact h
    · rw [if_neg hV]
      exact pyIn_append_left _ h
  have g2 : pyIn (pys "name:") c2 = true := by
    rw [hc2]
    by_cases hN : pyIn (pys "name:") c1 = true
    · rw [if_pos hN]
      exact hN
    · rw [if_neg hN]
      exact pyIn_append_right c1 (pyIn_name_nameSegment _)
  refine ⟨lift23 _ (lift12 _ f1), lift23 _ g2, ?_, ?_, ?_, ?_⟩
  · rw [hc3]
    by_cases hV : pyIn (pys "version:") c2 = true
    · rw [if_pos hV]
      exact hV
    · rw [if_neg hV]
      exact pyIn_append_right c2 (by decide)
  · intro hA
    refine lift23 _ (lift12 _ ?_)
    rw [hc1, if_neg (by rw [hA]; exact Bool.false_ne_true)]
    exact pyIn_append_left content (by decide)
  · intro hN
    refine lift23 _ ?_
    have hN1 : pyIn (pys "name:") c1 = false := by rw [f2]; exact hN
    rw [hc2, if_neg (by rw [hN1]; exact Bool.false_ne_true)]
    exact pyIn_nameDefault_inserted c1 bn
  · intro hV
    have hV1 : pyIn (pys "version:") c1 = false := by rw [f3]; exact hV
    have hV2 : pyIn (pys "version:") c2 = false := by
      rw [hc2]
      by_cases hN : pyIn (pys "name:") c1 = true
      · rw [if_pos hN]
        exact hV1
      · rw [if_neg hN]
        refine pyIn_append_false hV1 (pyIn_version_nameSegment bn hbn) ?_
        intro c hc
        simp [pys] at hc
        subst hc
        decide
    rw [hc3, if_neg (by rw [hV2]; exact Bool.false_ne_true)]
    exact pyIn_append_right c2 (by decide)

/-- Counterexample to C6 as stated: a chart directory whose basename
contains the text of the version label makes the version check of the
fixer pass spuriously after the name default is inserted, so a
Chart.yaml textually missing version: does not receive the fixed
default version 0.1.0. -/
theorem helm_fixer_default_counterexample :
    pyIn (pys "version:") (pys "apiVersion: v2") = false
    ∧ pyIn (pys "version: 0.1.0")
        (fixChartContent (pys "/charts/appversion:x") (pys "apiVersion: v2")) = false := by
  decide

/-- Witness for helm_fixer_inserts_missing_fields: a chart missing
version: has version: present with the default after one fix. -/
theorem helm_fixer_inserts_missing_fields_witness :
    pyIn (pys "version:")
      (fixChartContent (pys "/charts/demo") (pys "name: demo\napiVersion: v2")) = true
    ∧ pyIn (pys "version: 0.1.0")
      (fixChartContent (pys "/charts/demo") (pys "name: demo\napiVersion: v2")) = true := by
  have h := helm_fixer_inserts_missing_fields (pys "/charts/demo")
    (pys "name: demo\napiVersion: v2") (by decide) (Or.inr (Or.inr (by decide)))
  exact ⟨h.2.2.1, h.2.2.2.2.2 (by decide)⟩

/-- C7: the docker fixer evaluated on the specification's example line.
Python str.replace substitutes only the matched FROM python: prefix, so
the stale tag survives immediately after the pinned tag: the rewritten
image is python:3.11-slim3.9, which differs from the pinned
python:3.11-slim the substitution table intends. -/
theorem docker_from_rewrite_appends_old_tag :
    dockerFixLine (pys "FROM python:3.9\n") = Except.ok (pys "FROM python:3.11-slim3.9\n")
    ∧ pys "FROM python:3.11-slim3.9\n" ≠ pys "FROM python:3.11-slim\n" := by
  exact ⟨rfl, by decide⟩

theorem chartWalk_step (n : Nat) (p : PyStr) (hp : p.isEmpty = false) :
    chartWalk fsEmpty (n + 1) p = chartWalk fsEmpty n (pyDirname p) := by
  simp [chartWalk, fsEmpty, hp]

theorem chartWalk_root_spin : ∀ fuel, chartWalk fsEmpty fuel (pys "/") = none := by
  intro fuel
  induction fuel with
  | zero => rfl
  | succ n ih =>
    rw [chartWalk_step n (pys "/") (by decide),
      show pyDirname (pys "/") = pys "/" from by decide]
    exact ih

/-- C3: the upward chart-root walk inlined in validate_helm, fix_helm
and release_helm does not terminate on an absolute helm file path none
of whose ancestors holds a Chart.yaml: os.path.dirname of the root
directory is the root itself, so the loop condition still holds after
every number of iterations and the walk never exits within any fuel
bound.  The guarded find_chart_dirs helper of utils/helm.py breaks
exactly this loop, but the three nodes inline the unguarded form. -/
theorem helm_chart_walk_nonterminating :
    ∀ fuel : Nat,
      chartWalk fsEmpty fuel (pyDirname (pys "/srv/app/templates/deployment.yaml")) = none := by
  intro fuel
  rw [show pyDirname (pys "/srv/app/templates/deployment.yaml") = pys "/srv/app/templates" from
    by decide]
  match fuel with
  | 0 => rfl
  | 1 => rfl
  | 2 => rfl
  | (n + 3) =>
    show chartWalk fsEmpty ((n + 2) + 1) (pys "/srv/app/templates") = none
    rw [chartWalk_step (n + 2) _ (by decide),
      show pyDirname (pys "/srv/app/templates") = pys "/srv/app" from by decide]
    show chartWalk fsEmpty ((n + 1) + 1) (pys "/srv/app") = none
    rw [chartWalk_step (n + 1) _ (by decide),
      show pyDirname (pys "/srv/app") = pys "/srv" from by decide]
    show chartWalk fsEmpty (n + 1) (pys "/srv") = none
    rw [chartWalk_step n _ (by decide),
      show pyDirname (pys "/srv") = pys "/" from by decide]
    exact chartWalk_root_spin n

/-- C1: the full workflow evaluated on a root with no discoverable
files: every validator records an empty result list, aggregation finds
zero errors, the Decision Engine routes to release, all three release
stages record skipped, and the run terminates — but the terminal
status is releasing, because no node of the graph ever assigns the
success status, so the exit code of main is 1 where the specification
expects 0. -/
theorem workflow_clean_run_exits_one :
    finalStatus (run_cicd_agent 4 2 envNoFiles fsEmpty [pys "/repo"] 3) = some (pys "releasing")
    ∧ mainExitCode (run_cicd_agent 4 2 envNoFiles fsEmpty [pys "/repo"] 3) = some 1
    ∧ ∃ s, finalState (run_cicd_agent 4 2 envNoFiles fsEmpty [pys "/repo"] 3) = some s
        ∧ s.release_results.get FileType.docker = some { status := pys "skipped" }
        ∧ s.release_results.get FileType.helm = some { status := pys "skipped" }
        ∧ s.release_results.get FileType.terraform = some { status := pys "skipped" }
        ∧ totalErrors s.collected_errors = 0 := by
  exact ⟨rfl, rfl, ⟨_, rfl, rfl, rfl, rfl, rfl⟩⟩

theorem tfCmds_distinct : tfApplyCmd ≠ tfPlanCmd := by decide

theorem releaseTerraformGo_spec (env : Env) :
    ∀ (dirs : List PyStr) (s : CICDState) (log : List Cmd),
      (∀ cw, cw ∈ (releaseTerraformGo env s log dirs).2 → cw ∈ log
        ∨ ∃ d, cw.2 = some d
            ∧ d ∈ dirs.takeWhile (tfDirOk env)
                ++ (dirs.drop (dirs.takeWhile (tfDirOk env)).length).take 1)
      ∧ (∀ d, (tfApplyCmd, some d) ∈ (releaseTerraformGo env s log dirs).2 →
          (tfApplyCmd, some d) ∈ log ∨ (run_command env tfPlanCmd (some d)).1 = true)
      ∧ (dirs.takeWhile (tfDirOk env) = dirs →
          (releaseTerraformGo env s log dirs).1.release_results.get FileType.terraform
            = some { status := pys "success" })
      ∧ (dirs.takeWhile (tfDirOk env) ≠ dirs →
          ∃ e, (releaseTerraformGo env s log dirs).1.release_results.get FileType.terraform
            = some { status := pys "failed", err := some e }) := by
  intro dirs
  induction dirs with
  | nil =>
    intro s log
    refine ⟨fun cw h => Or.inl h, fun d h => Or.inl h, fun _ => ?_, fun h => absurd rfl h⟩
    simp [releaseTerraformGo, Cat3.get_set]
  | cons d rest ih =>
    intro s log
    by_cases hp1 : (run_command env tfPlanCmd (some d)).1 = true
    · by_cases hp2 : (run_command env tfApplyCmd (some d)).1 = true
      · have hok : tfDirOk env d = true := by simp [tfDirOk, hp1, hp2]
        have hgo : releaseTerraformGo env s log (d :: rest)
            = releaseTerraformGo env { s with terraform_applied := true }
                ((log ++ [(tfPlanCmd, some d)]) ++ [(tfApplyCmd, some d)]) rest := by
          simp [releaseTerraformGo, hp1, hp2]
        have ih' := ih { s with terraform_applied := true }
          ((log ++ [(tfPlanCmd, some d)]) ++ [(tfApplyCmd, some d)])
        rw [hgo]
        have htw : (d :: rest).takeWhile (tfDirOk env) = d :: rest.takeWhile (tfDirOk env) := by
          simp [List.takeWhile_cons, hok]
        refine ⟨?_, ?_, ?_, ?_⟩
        · intro cw hcw
          rcases ih'.1 cw hcw with hin | ⟨d', hd2, hd⟩
          · rw [List.mem_append, List.mem_append] at hin
            rcases hin with (hin | hin) | hin
            · exact Or.inl hin
            · refine Or.inr ⟨d, ?_, ?_⟩
              · rw [List.mem_singleton] at hin
                rw [hin]
              · rw [htw]
                exact List.mem_append_left _ (List.mem_cons_self d _)
            · refine Or.inr ⟨d, ?_, ?_⟩
              · rw [List.mem_singleton] at hin
                rw [hin]
              · rw [htw]
                exact List.mem_append_left _ (List.mem_cons_self d _)
          · refine Or.inr ⟨d', hd2, ?_⟩
            rw [htw]
            rw [List.cons_append, List.mem_cons]
            right
            have hdrop : (d :: rest).drop ((d :: rest.takeWhile (tfDirOk env)).length)
                = rest.drop ((rest.takeWhile (tfDirOk env)).length) := by
              simp [List.length_cons]
            rw [hdrop]
            exact hd
        · intro d' hmem
          rcases ih'.2.1 d' hmem with hin | hplan
          · rw [List.mem_append, List.mem_append] at hin
            rcases hin with (hin | hin) | hin
            · exact Or.inl hin
            · rw [List.mem_singleton, Prod.mk.injEq] at hin
              exact absurd hin.1 tfCmds_distinct
            · rw [List.mem_singleton, Prod.mk.injEq] at hin
              have : d' = d := Option.some_inj.mp hin.2
              rw [this]
              exact Or.inr hp1
          · exact Or.inr hplan
        · intro heq
          rw [htw] at heq
          exact ih'.2.2.1 (List.cons_inj_right d |>.mp heq)
        · intro hne
          rw [htw] at hne
          refine ih'.2.2.2 ?_
          intro heq
          exact hne (by rw [heq])
      · have hok : tfDirOk env d = false := by simp [tfDirOk, hp2]
        have hgo : releaseTerraformGo env s log (d :: rest)
            = ({ s with release_results :=
                  s.release_results.set FileType.terraform (some { status := pys "failed", err := some (run_command env tfApplyCmd (some d)).2.2 }) },
               (log ++ [(tfPlanCmd, some d)]) ++ [(tfApplyCmd, some d)]) := by
          simp [releaseTerraformGo, hp1, hp2]
        rw [hgo]
        have htw : (d :: rest).takeWhile (tfDirOk env) = [] := by
          simp [List.takeWhile_cons, hok]
        refine ⟨?_, ?_, ?_, ?_⟩
        · intro cw hcw
          rw [List.mem_append, List.mem_append] at hcw
          rcases hcw with (hin | hin) | hin
          · exact Or.inl hin
          · refine Or.inr ⟨d, ?_, ?_⟩
            · rw [List.mem_singleton] at hin
              rw [hin]
            · rw [htw]
              simp
          · refine Or.inr ⟨d, ?_, ?_⟩
            · rw [List.mem_singleton] at hin
              rw [hin]
            · rw [htw]
              simp
        · intro d' hmem
          rw [List.mem_append, List.mem_append] at hmem
          rcases hmem with (hin | hin) | hin
          · exact Or.inl hin
          · rw [List.mem_singleton, Prod.mk.injEq] at hin
            exact absurd hin.1 tfCmds_distinct
          · rw [List.mem_singleton, Prod.mk.injEq] at hin
            have : d' = d := Option.some_inj.mp hin.2
            rw [this]
            exact Or.inr hp1
        · intro heq
          rw [htw] at heq
          exact absurd heq.symm (List.cons_ne_nil d rest)
        · intro _
          exact ⟨(run_command env tfApplyCmd (some d)).2.2, by simp [Cat3.get_set]⟩
    · have hok : tfDirOk env d = false := by simp [tfDirOk, hp1]
      have hgo : releaseTerraformGo env s log (d :: rest)
          = ({ s with release_results :=
                s.release_results.set FileType.terraform (some { status := pys "failed", err := some (run_command env tfPlanCmd (some d)).2.2 }) },
             log ++ [(tfPlanCmd, some d)]) := by
        simp [releaseTerraformGo, hp1]
      rw [hgo]
      have htw : (d :: rest).takeWhile (tfDirOk env) = [] := by
        simp [List.takeWhile_cons, hok]
      refine ⟨?_, ?_, ?_, ?_⟩
      · intro cw hcw
        rw [List.mem_append] at hcw
        rcases hcw with hin | hin
        · exact Or.inl hin
        · refine Or.inr ⟨d, ?_, ?_⟩
          · rw [List.mem_singleton] at hin
            rw [hin]
          · rw [htw]
            simp
      · intro d' hmem
        rw [List.mem_append] at hmem
        rcases hmem with hin | hin
        · exact Or.inl hin
        · rw [List.mem_singleton, Prod.mk.injEq] at hin
          exact absurd hin.1 tfCmds_distinct
      · intro heq
        rw [htw] at heq
        exact absurd heq.symm (List.cons_ne_nil d rest)
      · intro _
        exact ⟨(run_command env tfPlanCmd (some d)).2.2, by simp [Cat3.get_set]⟩

/-- C9: the Terraform release stage is fail-fast.  With a non-empty
terraform file set, every command the stage issues runs in a directory
of the longest passing prefix of the distinct directory list plus at
most the first failing directory, so directories after the first
failure are never attempted; terraform apply is issued in a directory
only when its terraform plan passed; the stage records success exactly
when every directory's plan and apply pass, and records failed when
some directory fails. -/
theorem release_terraform_fail_fast (env : Env) (s : CICDState)
    (hne : s.files.get FileType.terraform ≠ []) :
    (∀ cw, cw ∈ (release_terraform env s).2 →
      ∃ d, cw.2 = some d
        ∧ d ∈ (tfReleaseDirs s).takeWhile (tfDirOk env)
            ++ ((tfReleaseDirs s).drop
                ((tfReleaseDirs s).takeWhile (tfDirOk env)).length).take 1)
    ∧ (∀ d, (tfApplyCmd, some d) ∈ (release_terraform env s).2 →
        (run_command env tfPlanCmd (some d)).1 = true)
    ∧ ((tfReleaseDirs s).takeWhile (tfDirOk env) = tfReleaseDirs s →
        (release_terraform env s).1.release_results.get FileType.terraform
          = some { status := pys "success" })
    ∧ ((tfReleaseDirs s).takeWhile (tfDirOk env) ≠ tfReleaseDirs s →
        ∃ e, (release_terraform env s).1.release_results.get FileType.terraform
          = some { status := pys "failed", err := some e }) := by
  have hemp : (s.files.get FileType.terraform).isEmpty = false := by
    cases hf : s.files.get FileType.terraform with
    | nil => exact absurd hf hne
    | cons a l => rfl
  have hrt : release_terraform env s = releaseTerraformGo env s [] (tfReleaseDirs s) := by
    simp [release_terraform, hemp, tfReleaseDirs]
  rw [hrt]
  have h := releaseTerraformGo_spec env (tfReleaseDirs s) s []
  refine ⟨?_, ?_, h.2.2.1, h.2.2.2⟩
  · intro cw hcw
    rcases h.1 cw hcw with hin | hd
    · exact absurd hin (List.not_mem_nil cw)
    · exact hd
  · intro d hm
    rcases h.2.1 d hm with hin | hp
    · exact absurd hin (List.not_mem_nil _)
    · exact hp

/-- Witness for release_terraform_fail_fast: with every external command
failing, the stage on one terraform directory records failed. -/
theorem release_terraform_fail_fast_witness :
    ∃ e, (release_terraform envAllFail stTfFiles).1.release_results.get FileType.terraform
      = some { status := pys "failed", err := some e } :=
  (release_terraform_fail_fast envAllFail stTfFiles (by decide)).2.2.2 (by decide)

theorem releaseDockerStep_all_fail (env : Env) :
    ∀ (files : List PyStr) (acc : List PyStr × List Cmd),
      (∀ f ∈ files, (run_command env (dockerBuildCmd env f) (some (dockerDirOf f))).1 = false) →
      (files.foldl (releaseDockerStep env) acc).1 = acc.1 := by
  intro files
  induction files with
  | nil =>
    intro acc h
    rfl
  | cons f rest ih =>
    intro acc h
    rw [List.foldl_cons, ih _ (fun g hg => h g (List.mem_cons_of_mem f hg))]
    simp [releaseDockerStep, h f (List.mem_cons_self f rest)]

theorem releaseHelmStep_all_fail (env : Env) :
    ∀ (chart_dirs : List PyStr) (acc : List PyStr × List Cmd),
      (∀ d ∈ chart_dirs, (run_command env (helmPackageCmd d) none).1 = false) →
      (chart_dirs.foldl (releaseHelmStep env) acc).1 = acc.1 := by
  intro chart_dirs
  induction chart_dirs with
  | nil =>
    intro acc h
    rfl
  | cons d rest ih =>
    intro acc h
    rw [List.foldl_cons, ih _ (fun g hg => h g (List.mem_cons_of_mem d hg))]
    simp [releaseHelmStep, h d (List.mem_cons_self d rest)]

/-- C10: the Docker and Helm release stages never modify the workflow
status or error_message: both fields survive each stage unchanged for
every input, and even when every docker build or every helm package
invocation fails, the failure is recorded only in release_results for
the category, with a failed status and an empty built-images or
released-charts list. -/
theorem release_docker_helm_frame (fuel : Nat) (env : Env) (fs : Fs) (s : CICDState) :
    (release_docker env s).1.status = s.status
    ∧ (release_docker env s).1.error_message = s.error_message
    ∧ (release_helm fuel env fs s).1.status = s.status
    ∧ (release_helm fuel env fs s).1.error_message = s.error_message
    ∧ (s.files.get FileType.docker ≠ [] →
        (∀ f ∈ s.files.get FileType.docker,
          (run_command env (dockerBuildCmd env f) (some (dockerDirOf f))).1 = false) →
        (release_docker env s).1.release_results.get FileType.docker
          = some { status := pys "failed", images := [] }
        ∧ (release_docker env s).1.docker_images_built = [])
    ∧ (s.files.get FileType.helm ≠ [] →
        (∀ d ∈ chartDirs fs fuel (s.files.get FileType.helm),
          (run_command env (helmPackageCmd d) none).1 = false) →
        (release_helm fuel env fs s).1.release_results.get FileType.helm
          = some { status := pys "failed", charts := [] }
        ∧ (release_helm fuel env fs s).1.helm_charts_released = []) := by
  refine ⟨?_, ?_, ?_, ?_, ?_, ?_⟩
  · unfold release_docker
    dsimp only
    split <;> rfl
  · unfold release_docker
    dsimp only
    split <;> rfl
  · unfold release_helm
    dsimp only
    split <;> rfl
  · unfold release_helm
    dsimp only
    split <;> rfl
  · intro hne hfail
    have hemp : (s.files.get FileType.docker).isEmpty = false := by
      cases hf : s.files.get FileType.docker with
      | nil => exact absurd hf hne
      | cons a l => rfl
    have hbuilt : ((s.files.get FileType.docker).foldl (releaseDockerStep env) ([], [])).1 = [] :=
      releaseDockerStep_all_fail env _ ([], []) hfail
    constructor
    · simp [release_docker, hemp, hbuilt, Cat3.get_set]
    · simp [release_docker, hemp, hbuilt]
  · intro hne hfail
    have hemp : (s.files.get FileType.helm).isEmpty = false := by
      cases hf : s.files.get FileType.helm with
      | nil => exact absurd hf hne
      | cons a l => rfl
    have hrel : ((chartDirs fs fuel (s.files.get FileType.helm)).foldl
        (releaseHelmStep env) ([], [])).1 = [] :=
      releaseHelmStep_all_fail env _ ([], []) hfail
    constructor
    · simp [release_helm, hemp, hrel, Cat3.get_set]
    · simp [release_helm, hemp, hrel]

/-- Witness for release_docker_helm_frame: with every external command
failing and one Dockerfile discovered, the docker stage records failed
with no images. -/
theorem release_docker_helm_frame_witness :
    (release_docker envAllFail stRelFiles).1.release_results.get FileType.docker
      = some { status := pys "failed", images := [] }
    ∧ (release_docker envAllFail stRelFiles).1.docker_images_built = [] :=
  (release_docker_helm_frame 4 envAllFail fsEmpty stRelFiles).2.2.2.2.1 (by decide) (by decide)
